import Mathlib

/-!
Verification development for the Absense attendance-tracking web application
(`webapp/__init__.py`, `webapp/models.py`).

Shallow embedding conventions:
* Python `datetime.date` / `time` / `datetime` values are modelled by the
  structures `Date`, `Time`, `Datetime` below.  Python compares normalized
  date/datetime values field-lexicographically, which on calendar-valid values
  coincides with comparing the proleptic-Gregorian ordinal (`Date.toOrdinal`,
  exactly CPython's `date.toordinal`) resp. the total minute count
  (`Datetime.toMin`); all order comparisons and `timedelta` arithmetic are
  therefore expressed through `toOrdinal` / `toMin`.
* Database columns that hold dates/times in the app's canonical formats
  (`%Y/%m/%d`, `%H:%M`) are modelled by their parsed values; `VD.parse_date` /
  `VD.parse_time` applied to such a stored string is the identity on the
  modelled value.  The one place where the raw string form is load-bearing —
  `Group.hours_prev_day` applies the *datetime* parser `VD.parse_dt` to a
  date-only string — keeps the round trip through `VD.comp_date` explicit.
* Fallible Python code (raised exceptions) is modelled with `Except PyErr`;
  `PyErr` distinguishes the exception classes the embedded code can raise.
* The process-wide mutable virtual clock `vd` is modelled by explicit state
  passing: functions that read `vd` take its current value (`vdNow`) as an
  argument, and the clock's mutators map a `VDState` to a new `VDState`.
-/

/-- Python exception classes that the embedded code can raise. -/
inductive PyErr where
  | overlap (id1 id2 : Nat)   -- TimetableOverlapError(id1, id2)
  | valueError
  | typeError
  | indexError
  | attributeError
deriving DecidableEq, Repr

structure Date where
  year : Nat
  month : Nat
  day : Nat
deriving DecidableEq, Repr

structure Time where
  hour : Nat
  minute : Nat
deriving DecidableEq, Repr

structure Datetime where
  date : Date
  time : Time
deriving DecidableEq, Repr

/-- Gregorian leap-year test, as in Python's `calendar.isleap`. -/
def isLeap (y : Nat) : Bool := y % 4 == 0 && (y % 100 != 0 || y % 400 == 0)

def daysInMonth (y m : Nat) : Nat :=
  if m == 2 then (if isLeap y then 29 else 28)
  else if m == 4 || m == 6 || m == 9 || m == 11 then 30
  else 31

/-- Days in the months strictly before month `m` of year `y`. -/
def daysBeforeMonth (y m : Nat) : Nat :=
  (List.range (m - 1)).foldl (fun acc i => acc + daysInMonth y (i + 1)) 0

/-- CPython's `date.toordinal`: day 1 is 0001-01-01 (a Monday) in the
proleptic Gregorian calendar. -/
def Date.toOrdinal (d : Date) : Nat :=
  let y := d.year - 1
  365 * y + y / 4 - y / 100 + y / 400 + daysBeforeMonth d.year d.month + d.day

/-- CPython's `date.weekday`: 0 = Monday .. 6 = Sunday. -/
def Date.weekday (d : Date) : Nat := (d.toOrdinal + 6) % 7

/-- Calendar validity, as enforced by the `datetime.date` constructor. -/
def Date.valid (d : Date) : Bool :=
  1 ≤ d.year && 1 ≤ d.month && d.month ≤ 12 && 1 ≤ d.day && d.day ≤ daysInMonth d.year d.month

def Date.leb (a b : Date) : Bool := decide (a.toOrdinal ≤ b.toOrdinal)
def Date.ltb (a b : Date) : Bool := decide (a.toOrdinal < b.toOrdinal)

def Time.toMin (t : Time) : Nat := 60 * t.hour + t.minute

def Datetime.toMin (x : Datetime) : Nat := 1440 * x.date.toOrdinal + x.time.toMin

-- sanity: 2021-09-06 was a Monday, and the embedded ordinal agrees with
-- CPython (date(2021, 9, 6).toordinal() == 738039)
example : Date.toOrdinal ⟨2021, 9, 6⟩ = 738039 := by decide
example : Date.weekday ⟨2021, 9, 6⟩ = 0 := by decide

/-! ## Configuration (`webapp/__init__.py`, class `Cf`) -/

namespace Cf

def max_late : Nat := 5
def max_abs : Nat := 30
def d_str : String := "2022/01/20"
def t_str : String := "15:30"
def dt_str : String := d_str ++ " " ++ t_str

end Cf

/-! ## String parsing and formatting (`webapp/__init__.py`, class `VD`)

`strptimeDate` / `strptimeTime` / `strptimeDt` model CPython's
`datetime.strptime` with the formats `Cf.d_form = "%Y/%m/%d"`,
`Cf.t_form = "%H:%M"` and `Cf.dt_form = "%Y/%m/%d %H:%M"`; `none` models a
raised `ValueError`.  CPython's `_strptime` matches `%Y` as `\d\d\d\d`,
`%m` as `1[0-2]|0[1-9]|[1-9]`, `%d` as `3[01]|[12]\d|0[1-9]|[1-9]`,
`%H` as `2[0-3]|[0-1]\d|\d` and `%M` as `[0-5]\d|\d`, requires the whole
string to be consumed, and the `date` constructor then validates the
calendar date. -/

def isDigitCh (c : Char) : Bool := '0' ≤ c && c ≤ '9'

def allDigits (l : List Char) : Bool := l.all isDigitCh

def digitsVal (l : List Char) : Nat :=
  l.foldl (fun a c => 10 * a + (c.toNat - '0'.toNat)) 0

/-- Split a character list at every occurrence of `sep`
(the semantics of Python `str.split(sep)` for a single-character `sep`). -/
def splitOnCh (sep : Char) : List Char → List (List Char)
  | [] => [[]]
  | c :: rest =>
    let r := splitOnCh sep rest
    if c == sep then [] :: r
    else
      match r with
      | a :: tl => (c :: a) :: tl
      | [] => [[c]]

/-- `%Y`: exactly four digits. -/
def matchY (l : List Char) : Bool := l.length == 4 && allDigits l

/-- `%m`: `1[0-2]|0[1-9]|[1-9]`. -/
def matchMon : List Char → Bool
  | [c] => '1' ≤ c && c ≤ '9'
  | [c1, c2] => (c1 == '0' && '1' ≤ c2 && c2 ≤ '9') || (c1 == '1' && '0' ≤ c2 && c2 ≤ '2')
  | _ => false

/-- `%d`: `3[01]|[12]\d|0[1-9]|[1-9]`. -/
def matchDay : List Char → Bool
  | [c] => '1' ≤ c && c ≤ '9'
  | [c1, c2] =>
      (c1 == '0' && '1' ≤ c2 && c2 ≤ '9')
      || ((c1 == '1' || c1 == '2') && isDigitCh c2)
      || (c1 == '3' && (c2 == '0' || c2 == '1'))
  | _ => false

/-- `%H`: `2[0-3]|[0-1]\d|\d`. -/
def matchHour : List Char → Bool
  | [c] => isDigitCh c
  | [c1, c2] => ((c1 == '0' || c1 == '1') && isDigitCh c2) || (c1 == '2' && '0' ≤ c2 && c2 ≤ '3')
  | _ => false

/-- `%M`: `[0-5]\d|\d`. -/
def matchMinute : List Char → Bool
  | [c] => isDigitCh c
  | [c1, c2] => '0' ≤ c1 && c1 ≤ '5' && isDigitCh c2
  | _ => false

def strptimeDate (s : String) : Option Date :=
  match splitOnCh '/' s.data with
  | [ys, ms, ds] =>
    if matchY ys && matchMon ms && matchDay ds then
      let d : Date := ⟨digitsVal ys, digitsVal ms, digitsVal ds⟩
      if d.valid then some d else none
    else none
  | _ => none

def strptimeTime (s : String) : Option Time :=
  match splitOnCh ':' s.data with
  | [hs, ms] =>
    if matchHour hs && matchMinute ms then some ⟨digitsVal hs, digitsVal ms⟩ else none
  | _ => none

def strptimeDt (s : String) : Option Datetime :=
  match splitOnCh ' ' s.data with
  | [ds, ts] =>
    match strptimeDate (String.mk ds), strptimeTime (String.mk ts) with
    | some d, some t => some ⟨d, t⟩
    | _, _ => none
  | _ => none

namespace VD

/-- `VD.parse_date`: falls back to `Cf.d_str` when the argument is `None`
(modelled `none`) or empty; `none` in the result models a `ValueError`. -/
def parse_date (s : Option String) : Option Date :=
  strptimeDate (match s with | none => Cf.d_str | some str => if str == "" then Cf.d_str else str)

/-- `VD.parse_time`, with the same fallback convention. -/
def parse_time (s : Option String) : Option Time :=
  strptimeTime (match s with | none => Cf.t_str | some str => if str == "" then Cf.t_str else str)

/-- `VD.parse_dt`, with the same fallback convention. -/
def parse_dt (s : Option String) : Option Datetime :=
  strptimeDt (match s with | none => Cf.dt_str | some str => if str == "" then Cf.dt_str else str)

/-- Zero-padded decimal rendering, as `strftime` field output. -/
def padNum (width n : Nat) : String :=
  let s := toString n
  if s.length < width then String.mk (List.replicate (width - s.length) '0') ++ s else s

/-- `VD.comp_date`: `strftime` with format `%Y/%m/%d`. -/
def comp_date (d : Date) : String :=
  padNum 4 d.year ++ "/" ++ padNum 2 d.month ++ "/" ++ padNum 2 d.day

/-- `VD.comp_time`: `strftime` with format `%H:%M`. -/
def comp_time (t : Time) : String :=
  padNum 2 t.hour ++ ":" ++ padNum 2 t.minute

/-- `VD.comp_dt`: `strftime` with format `%Y/%m/%d %H:%M`. -/
def comp_dt (x : Datetime) : String := comp_date x.date ++ " " ++ comp_time x.time

/-- The separators accepted by the date regex `Cf.d_regex`: slash or dash. -/
def isSepCh (c : Char) : Bool := c == '/' || c == '-'

/-- Split a character list at its first `/` or `-` separator. -/
def splitAtSep : List Char → Option (List Char × List Char)
  | [] => none
  | c :: rest =>
    if isSepCh c then some ([], rest)
    else
      match splitAtSep rest with
      | some (a, b) => some (c :: a, b)
      | none => none

/-- The month group of `Cf.d_regex`: `0?[1-9]|1[0-2]`. -/
def monthPat : List Char → Bool
  | [c] => '1' ≤ c && c ≤ '9'
  | [c1, c2] => (c1 == '0' && '1' ≤ c2 && c2 ≤ '9') || (c1 == '1' && '0' ≤ c2 && c2 ≤ '2')
  | _ => false

/-- The day group of `Cf.d_regex`: `0?[1-9]|[1-2][0-9]|3[0-1]`. -/
def dayPat : List Char → Bool
  | [c] => '1' ≤ c && c ≤ '9'
  | [c1, c2] =>
      (c1 == '0' && '1' ≤ c2 && c2 ≤ '9')
      || ((c1 == '1' || c1 == '2') && isDigitCh c2)
      || (c1 == '3' && (c2 == '0' || c2 == '1'))
  | _ => false

/-- `VD.rx_date`: match `Cf.d_regex`, which anchors
`(\d{2}) sep (0?[1-9]|1[0-2]) sep (0?[1-9]|[1-2][0-9]|3[0-1])` where each
`sep` is independently a slash or a dash, and rebuild
`'20' + yy + '/' + mm + '/' + dd`; `none` models Python `None`. -/
def rx_date (date : String) : Option String :=
  match date.data with
  | y1 :: y2 :: c :: rest =>
    if isDigitCh y1 && isDigitCh y2 && isSepCh c then
      match splitAtSep rest with
      | some (mchars, dchars) =>
        if monthPat mchars && dayPat dchars then
          some (String.mk ('2' :: '0' :: y1 :: y2 :: '/' :: (mchars ++ '/' :: dchars)))
        else none
      | none => none
    else none
  | _ => none

/-- The hour group of `Cf.t_regex`: `0[0-9]|1[0-9]|2[0-3]`. -/
def hourPat (c1 c2 : Char) : Bool :=
  ((c1 == '0' || c1 == '1') && isDigitCh c2) || (c1 == '2' && '0' ≤ c2 && c2 ≤ '3')

/-- The minute group of `Cf.t_regex`: `[0-5][0-9]`. -/
def minutePat (c1 c2 : Char) : Bool := '0' ≤ c1 && c1 ≤ '5' && isDigitCh c2

/-- `VD.rx_time`: match `Cf.t_regex` (`^(0[0-9]|1[0-9]|2[0-3]):?([0-5][0-9])$`)
and rebuild `hh + ':' + mm`. -/
def rx_time (time : String) : Option String :=
  match time.data with
  | [h1, h2, c, m1, m2] =>
    if c == ':' && hourPat h1 h2 && minutePat m1 m2 then
      some (String.mk [h1, h2, ':', m1, m2])
    else none
  | [h1, h2, m1, m2] =>
    if hourPat h1 h2 && minutePat m1 m2 then
      some (String.mk [h1, h2, ':', m1, m2])
    else none
  | _ => none

end VD

-- sanity: the configured defaults parse to the expected values
example : strptimeDate Cf.d_str = some ⟨2022, 1, 20⟩ := by decide
example : strptimeTime Cf.t_str = some ⟨15, 30⟩ := by decide
example : strptimeDt Cf.dt_str = some ⟨⟨2022, 1, 20⟩, ⟨15, 30⟩⟩ := by decide
example : VD.rx_date "21/9/6" = some "2021/9/6" := by decide
example : VD.rx_date "21-09-06" = some "2021/09/06" := by decide
example : VD.rx_time "0833" = some "08:33" := by decide
example : VD.comp_date ⟨2021, 9, 6⟩ = "2021/09/06" := by decide
example : strptimeDt (VD.comp_date ⟨2021, 9, 6⟩) = none := by decide

deriving instance DecidableEq for Except

/-- Insert `x` after every already-placed element `y` with `le y x`.
Helper of `pySorted`. -/
def insertLe (le : α → α → Bool) (x : α) : List α → List α
  | [] => [x]
  | y :: ys => if le y x then y :: insertLe le x ys else x :: y :: ys

/-- Python's `sorted` with a key order given as the boolean total preorder
`le`: a *stable* sort, realised as left-to-right insertion (each later
element is inserted after all elements less than or equal to it, which is
exactly the stable order; every stable sort with the same total preorder
produces the same list, so this is extensionally Python's timsort). -/
def pySorted (le : α → α → Bool) (l : List α) : List α :=
  l.foldl (fun acc x => insertLe le x acc) []

/-! ## Data model (`webapp/models.py`)

Only the columns and relationships the scheduling core reads are modelled.
Stored date/time strings appear as their parsed values (see the header note).
`Hour.hours_on_day`'s `day == str` comparison in the source compares an
integer against the *type* `str` and is therefore always false, so the
weekday-name branch is dead and the argument is always the integer day. -/

namespace webapp

structure Hour where
  id : Nat
  day_of_week : Nat
  hour_of_day : Nat
  time_start : Time
  time_end : Time
  course : String
  level : String
deriving DecidableEq, Repr

structure Timetable where
  id : Nat
  string : String
  date_start : Date
  date_end : Date
  hours : List Hour
deriving DecidableEq, Repr

structure Group where
  id : Nat
  string : String
  timetables : List Timetable
deriving DecidableEq, Repr

structure Record where
  id : Nat
  date : Date
  time : Time
  absent : Bool
  delay : Option Nat
  late : Bool
  student_id : Nat
  hour_id : Nat
deriving DecidableEq, Repr

/-- `Student`: `records` is the student's attendance records in insertion
(check-in) order, as returned by the record table query. -/
structure Student where
  id : Nat
  records : List Record
  group : Group
deriving DecidableEq, Repr

/-- `Timetable.hours_on_day`: sort all hours by `(day_of_week, hour_of_day)`
(Python `sorted` is stable) and keep those on the given weekday. -/
def Timetable.hours_on_day (tt : Timetable) (day : Nat) : List Hour :=
  (pySorted (fun a b =>
      decide (a.day_of_week < b.day_of_week)
      || (a.day_of_week == b.day_of_week && decide (a.hour_of_day ≤ b.hour_of_day))) tt.hours).filter
    (fun h => h.day_of_week == day)

/-- `Timetable.is_active`: `start <= date <= end`, inclusive both ends. -/
def Timetable.is_active (tt : Timetable) (date : Date) : Bool :=
  tt.date_start.leb date && date.leb tt.date_end

/-- The adjacent-pair scan of `Timetable.eck_overlap` over the already
sorted list: raise `TimetableOverlapError(tt1.id, tt2.id)` at the first
adjacent pair with `tt1.date_end > tt2.date_start`. -/
def eckAdj : List Timetable → Except PyErr Unit
  | t1 :: t2 :: rest =>
    if t2.date_start.ltb t1.date_end then Except.error (PyErr.overlap t1.id t2.id)
    else eckAdj (t2 :: rest)
  | _ => pure ()

/-- `Timetable.eck_overlap`: sort by `date_start` and scan adjacent pairs. -/
def Timetable.eck_overlap (timetables : List Timetable) : Except PyErr Unit :=
  eckAdj (pySorted (fun a b => a.date_start.leb b.date_start) timetables)

/-- `Group.timetable`: the first timetable active on `date`; else the first
whose `date_start` is strictly after `date`; else `self.timetables[0]`,
which raises `IndexError` when the group has no timetables. -/
def Group.timetable (g : Group) (date : Date) : Except PyErr Timetable :=
  match g.timetables.find? (fun tt => tt.is_active date) with
  | some tt => pure tt
  | none =>
    match g.timetables.find? (fun tt => date.ltb tt.date_start) with
    | some tt => pure tt
    | none =>
      match g.timetables with
      | [] => Except.error PyErr.indexError
      | tt :: _ => pure tt

/-- `Group.hours_on_date`: run `eck_overlap` first (its
`TimetableOverlapError` propagates), then the hours of the timetable active
on `date`, or `None` if no timetable is active. -/
def Group.hours_on_date (g : Group) (date : Date) : Except PyErr (Option (List Hour)) := do
  Timetable.eck_overlap g.timetables
  match g.timetables.find? (fun tt => tt.is_active date) with
  | some tt => pure (some (tt.hours_on_day date.weekday))
  | none => pure none

/-- `Group.hour_now` with the `None`-argument fallback to the virtual clock
already resolved into `x`: the first of today's hours whose inclusive
`[time_start, time_end]` range contains `x.time`, else `None`. -/
def Group.hour_now (g : Group) (x : Datetime) : Except PyErr (Option Hour) := do
  let hod ← g.hours_on_date x.date
  match hod with
  | some hours =>
    -- `if self.hours_on_date(...)`: an empty tuple is falsy, but then the
    -- loop below finds nothing either, so `find?` covers both branches
    pure (hours.find? (fun h =>
      decide (h.time_start.toMin ≤ x.time.toMin) && decide (x.time.toMin ≤ h.time_end.toMin)))
  | none => pure none

/-- `Group.is_late`: `datetime.time() > (start_dt + timedelta(minutes=Cf.max_late)).time()`.
Accessing `cur_hour.time_start` on `None` raises `AttributeError` before the
`if cur_hour` guard is reached. -/
def Group.is_late (g : Group) (x : Datetime) : Except PyErr Bool := do
  let cur ← g.hour_now x
  match cur with
  | none => Except.error PyErr.attributeError
  | some h =>
    pure (decide (x.time.toMin > (h.time_start.toMin + Cf.max_late) % 1440))

/-- `Group.mins_late`: `None` without a current hour; else
`int((datetime - start).total_seconds() / 60)` when `start < datetime`
(whole minutes; the times carry no seconds, so the division is exact),
else `0`.  Note: the source's guard is `start < datetime`, not the
configured lateness threshold its comment refers to. -/
def Group.mins_late (g : Group) (x : Datetime) : Except PyErr (Option Nat) := do
  let cur ← g.hour_now x
  match cur with
  | none => pure none
  | some h =>
    let start : Datetime := ⟨x.date, h.time_start⟩
    if start.toMin < x.toMin then pure (some (x.toMin - start.toMin))
    else pure (some 0)

/-- `Group.is_absent`: `datetime > start_dt + dt.timedelta(Cf.max_abs)`.
`timedelta`'s first positional parameter is *days*, so this adds
`Cf.max_abs` days (`Cf.max_abs * 1440` minutes), not minutes.  As in
`is_late`, a missing current hour raises `AttributeError`. -/
def Group.is_absent (g : Group) (x : Datetime) : Except PyErr Bool := do
  let cur ← g.hour_now x
  match cur with
  | none => Except.error PyErr.attributeError
  | some h =>
    let start : Datetime := ⟨x.date, h.time_start⟩
    pure (decide (x.toMin > start.toMin + Cf.max_abs * 1440))

/-- The comparator of `Group.is_off`'s hour sort: the key is
`(day_of_week, datetime.combine(x.date, time_end))`; the combined date is
the same for every hour, so it orders by `(day_of_week, time_end)`. -/
def isOffHourLe (a b : Hour) : Bool :=
  decide (a.day_of_week < b.day_of_week)
  || (a.day_of_week == b.day_of_week && decide (a.time_end.toMin ≤ b.time_end.toMin))

/-- `Group.is_off`: `sorted(self.timetables, key=date_end)[-1]` raises
`IndexError` on a group without timetables; otherwise `True` iff the
instant is strictly past `combine(last_tt.date_end, last_hour.time_end)`,
and `False` when the last timetable has no hours. -/
def Group.is_off (g : Group) (x : Datetime) : Except PyErr Bool := do
  let last_tt ← match (pySorted (fun a b => a.date_end.leb b.date_end) g.timetables).getLast? with
    | some tt => pure tt
    | none => Except.error PyErr.indexError
  match (pySorted isOffHourLe last_tt.hours).getLast? with
  | some last_hour =>
    pure (decide ((⟨last_tt.date_end, last_hour.time_end⟩ : Datetime).toMin < x.toMin))
  | none => pure false

/-- `Group.hours_prev_day`.  The first statement is
`delta = VD.parse_dt(date) - VD.parse_dt(self.timetable(date).date_start)`:
its left operand passes the raw argument to `strptime`, which raises
`TypeError` on a `datetime` object and parses the configured default for
`None`; its right operand applies the *datetime* parser to the stored
date-only `date_start` string, which always raises `ValueError`.  The
backward day scan and the previous-timetable fallback below that line are
therefore unreachable, and the function can never return normally. -/
def Group.hours_prev_day (g : Group) (vdNow : Datetime) (date : Option Datetime) :
    Except PyErr (Option (List Hour)) := do
  let _left ← (match date with
    | some _ => Except.error PyErr.typeError
    | none =>
      match VD.parse_dt none with
      | some x => pure x
      | none => Except.error PyErr.valueError : Except PyErr Datetime)
  let tt ← g.timetable (match date with | none => vdNow.date | some x => x.date)
  let _right ← (match VD.parse_dt (some (VD.comp_date tt.date_start)) with
    | some x => pure x
    | none => Except.error PyErr.valueError : Except PyErr Datetime)
  -- unreachable (the bind above always fails: `comp_date` emits no space,
  -- so the datetime format never matches); ends as the source does
  pure none

/-- `Group.hour_prev`.  Unlike the other resolvers this function never
resolves its `datetime` argument against the virtual clock itself; each
callee performs its own fallback.  The third of its eager lookups,
`hours_prev_day`, always raises (see there), so everything after it is
unreachable; in that dead code, `hours_today.index[hour_current]`
subscripts the bound method object `tuple.index` (`TypeError`), and
`VD.parse_time(datetime)` passes a `datetime` object (or, for `None`, the
configured default time string) to the time parser. -/
def Group.hour_prev (g : Group) (vdNow : Datetime) (datetime : Option Datetime) :
    Except PyErr (Option Hour) := do
  let hour_current ← g.hour_now (match datetime with | none => vdNow | some x => x)
  let hours_today ← g.hours_on_date (match datetime with | none => vdNow.date | some x => x.date)
  let hours_prev_day ← g.hours_prev_day vdNow datetime
  match hour_current with
  | some _ => Except.error PyErr.typeError  -- hours_today.index[hour_current]
  | none => do
    let hts ← (match hours_today with
      | none => Except.error PyErr.typeError  -- reversed(None)
      | some l => pure l : Except PyErr (List Hour))
    let found ← (match hts with
      | [] => pure none  -- empty loop: VD.parse_time is never evaluated
      | _ :: _ => do
        let t ← (match datetime with
          | some _ => Except.error PyErr.typeError  -- VD.parse_time(<datetime object>)
          | none =>
            match VD.parse_time none with
            | some t => pure t
            | none => Except.error PyErr.valueError : Except PyErr Time)
        pure (hts.reverse.find? (fun h => decide (t.toMin > h.time_end.toMin)))
        : Except PyErr (Option Hour))
    match found with
    | some h => pure (some h)
    | none =>
      match hours_prev_day with
      | some (h :: rest) => pure (some ((h :: rest).getLast (by simp)))
      | _ => pure none

/-- `Student.update_status`, with both the explicit evaluation instant and
the value of the shared virtual clock (`vdNow`) passed explicitly.  The
initial guard calls `self.group.hour_now()` with *no* argument (so it reads
the virtual clock), and the record cutoff compares against `vd.datetime`.
The record query filters by `(student_id, hour_id, date)` — the stored date
string is `comp_date`, which is injective, so string equality is date
equality — and returns records in insertion order.  The
`for rec in reversed(records)` loop overwrites `record` at every
qualifying element, so the last assignment, i.e. the *first* qualifying
record in list order, wins. -/
def Student.update_status (s : Student) (vdNow : Datetime) (datetime : Option Datetime) :
    Except PyErr String := do
  let x := match datetime with | none => vdNow | some v => v
  let guard ← s.group.hour_now vdNow
  match guard with
  | none => pure "not_expected"
  | some _ => do
    let hourOpt ← s.group.hour_now x
    let hour ← (match hourOpt with
      | some h => pure h
      | none => Except.error PyErr.attributeError : Except PyErr Hour)  -- hour.id on None
    let records := s.records.filter (fun r =>
      r.student_id == s.id && r.hour_id == hour.id && r.date == x.date)
    let record := records.reverse.foldl
      (fun acc rec =>
        if (⟨x.date, rec.time⟩ : Datetime).toMin ≤ vdNow.toMin then some rec else acc)
      none
    match record with
    | some rec =>
      if rec.absent then pure "absent_known"
      else if rec.late && !rec.absent then pure "late_known"
      else pure "present_known"
    | none =>
      -- dt_absent / dt_late: combine(x.date, hour.time_start) plus
      -- timedelta(minutes=Cf.max_abs) resp. timedelta(minutes=Cf.max_late):
      -- here the same `Cf.max_abs` that `is_absent` treats as days is
      -- explicitly given in minutes
      let startMin := (⟨x.date, hour.time_start⟩ : Datetime).toMin
      if decide (x.toMin > startMin + Cf.max_abs) then pure "absent_unknown"
      else if decide (x.toMin > startMin + Cf.max_late) then pure "late_unknown"
      else pure "present_unknown"

end webapp

/-! ## The virtual clock instance (`webapp/__init__.py`, class `VD`)

The single process-wide mutable instance `vd` is modelled by explicit state
passing: each mutator maps a `VDState` to the next one.  Setter arguments
are modelled by their values after `conv_any_date` / `conv_any_time` /
`conv_any_dt` (which map the accepted date/time/datetime objects, strings
and clock references to exactly these values, or raise), with `none` for
Python `None`. -/

namespace VD

/-- The parsed configured default date, `VD.parse_date(Cf.d_str)`
(certified by `vd_default_date_parses` below). -/
def defaultDate : Date := ⟨2022, 1, 20⟩

/-- The parsed configured default time, `VD.parse_time(Cf.t_str)`. -/
def defaultTime : Time := ⟨15, 30⟩

/-- The parsed configured default datetime, `VD.parse_dt(Cf.dt_str)`. -/
def defaultDt : Datetime := ⟨defaultDate, defaultTime⟩

end VD

theorem vd_default_date_parses : VD.parse_date (some Cf.d_str) = some VD.defaultDate := by decide

theorem vd_default_time_parses : VD.parse_time (some Cf.t_str) = some VD.defaultTime := by decide

theorem vd_default_dt_parses : VD.parse_dt (some Cf.dt_str) = some VD.defaultDt := by decide

/-- The mutable attributes of the `VD` instance. -/
structure VDState where
  date : Date
  time : Time
  datetime : Datetime
  date_str : String
  time_str : String
  datetime_str : String
deriving DecidableEq, Repr

/-- `VD.update`: recompute `datetime` from `date`/`time` and re-render the
three string forms (each `strftime` reads the freshly combined value). -/
def VDState.update (s : VDState) : VDState :=
  let dtm : Datetime := ⟨s.date, s.time⟩
  { s with
    datetime := dtm
    date_str := VD.comp_date dtm.date
    time_str := VD.comp_time dtm.time
    datetime_str := VD.comp_dt dtm }

/-- `VD.reset`: set `date`/`time` to the parsed configured defaults, then
`update`. -/
def VDState.reset (s : VDState) : VDState :=
  ({ s with date := VD.defaultDate, time := VD.defaultTime }).update

/-- `VD.set_date`: converted argument or the configured default, then
`update`. -/
def VDState.set_date (s : VDState) (date : Option Date) : VDState :=
  ({ s with date := match date with | some d => d | none => VD.defaultDate }).update

/-- `VD.set_time`: converted argument or the configured default, then
`update`. -/
def VDState.set_time (s : VDState) (time : Option Time) : VDState :=
  ({ s with time := match time with | some t => t | none => VD.defaultTime }).update

/-- `VD.set_dt`: assigns `self.date` and `self.time` from the converted
argument (or the configured default) — and nothing else: the source neither
assigns `self.datetime` nor calls `self.update()`. -/
def VDState.set_dt (s : VDState) (datetime : Option Datetime) : VDState :=
  let x := match datetime with | some v => v | none => VD.defaultDt
  { s with date := x.date, time := x.time }

/-- `VD.set_date_now`: `set_date(datetime.now())` (the conversion takes the
real clock's date), followed by a second `update`. -/
def VDState.set_date_now (s : VDState) (now : Datetime) : VDState :=
  (s.set_date (some now.date)).update

/-- `VD.set_time_now`. -/
def VDState.set_time_now (s : VDState) (now : Datetime) : VDState :=
  (s.set_time (some now.time)).update

/-- `VD.set_dt_now`: `set_dt(datetime.now())` followed by `update` — the
only reason this mutator leaves the clock consistent. -/
def VDState.set_dt_now (s : VDState) (now : Datetime) : VDState :=
  (s.set_dt (some now)).update

/-- `VD.__init__` calls `reset()`; the pre-`reset` attribute values are
irrelevant because `reset` overwrites every field. -/
def VDState.init : VDState :=
  VDState.reset ⟨VD.defaultDate, VD.defaultTime, VD.defaultDt, "", "", ""⟩

/-- The spec's clock invariant (§3 VirtualClock): `datetime` is exactly the
combination of `date` and `time`, and the three string forms render those
same values. -/
def VDState.consistent (s : VDState) : Bool :=
  s.datetime == ⟨s.date, s.time⟩
  && s.date_str == VD.comp_date s.date
  && s.time_str == VD.comp_time s.time
  && s.datetime_str == VD.comp_dt ⟨s.date, s.time⟩

/-- `VD.process_form`: `data['virtual_date']` is truthy iff non-empty; a
truthy raw string goes through `rx_date`/`rx_time` and then the parser
(whose `ValueError` propagates to the caller), a falsy one becomes
`set_date(None)` / `set_time(None)`. -/
def VDState.process_form (s : VDState) (virtual_date virtual_time : String) :
    Except PyErr VDState := do
  let s1 ←
    if virtual_date ≠ "" then
      match VD.parse_date (VD.rx_date virtual_date) with
      | some d => pure (s.set_date (some d))
      | none => Except.error PyErr.valueError
    else pure (s.set_date none)
  if virtual_time ≠ "" then
    match VD.parse_time (VD.rx_time virtual_time) with
    | some t => pure (s1.set_time (some t))
    | none => Except.error PyErr.valueError
  else pure (s1.set_time none)

/-! ## Concrete fixtures

A demonstration group in the shape of the spec's §8 scenario: one timetable
valid 2021-08-30 .. 2022-06-30 with two Monday slots, 08:30–09:15 and
09:20–10:05.  2021-09-06 is a Monday. -/

namespace webapp

def hourA : Hour := ⟨1, 0, 1, ⟨8, 30⟩, ⟨9, 15⟩, "math", "A"⟩

def hourB : Hour := ⟨2, 0, 2, ⟨9, 20⟩, ⟨10, 5⟩, "physics", "A"⟩

def ttDemo : Timetable := ⟨1, "semester 1", ⟨2021, 8, 30⟩, ⟨2022, 6, 30⟩, [hourA, hourB]⟩

def groupDemo : Group := ⟨1, "1A", [ttDemo]⟩

/-- A group without any timetable. -/
def groupNoTT : Group := ⟨2, "2B", []⟩

def stuNoRec : Student := ⟨1, [], groupDemo⟩

/-- A first (earlier) check-in record for `hourA` on 2021-09-06: on time. -/
def recEarly : Record := ⟨1, ⟨2021, 9, 6⟩, ⟨8, 35⟩, false, some 5, false, 1, 1⟩

/-- A second (later) check-in record for the same hour and date: late. -/
def recLater : Record := ⟨2, ⟨2021, 9, 6⟩, ⟨8, 50⟩, false, some 20, true, 1, 1⟩

def stuTwoRec : Student := ⟨1, [recEarly, recLater], groupDemo⟩

/-! ## Claim theorems -/

/-- C1: at Monday 2021-09-06 09:05 the current hour exists (the 08:30–09:15
slot) and the instant is 35 > 30 minutes past its start, so the claim
(`is_absent` true iff strictly after start + 30 *minutes*) demands `True`;
the code compares against start + `timedelta(30)` = 30 *days* and returns
`False` — while `update_status`'s no-record branch, fed by the same
`Cf.max_abs` with an explicit `minutes=`, classifies the very same instant
as `absent_unknown`.  The code contradicts itself about the unit. -/
theorem C1_is_absent_uses_days_not_minutes :
    groupDemo.is_absent ⟨⟨2021, 9, 6⟩, ⟨9, 5⟩⟩ = Except.ok false
    ∧ (⟨⟨2021, 9, 6⟩, ⟨9, 5⟩⟩ : Datetime).toMin
        > (⟨⟨2021, 9, 6⟩, ⟨8, 30⟩⟩ : Datetime).toMin + Cf.max_abs
    ∧ stuNoRec.update_status ⟨⟨2021, 9, 6⟩, ⟨9, 5⟩⟩ (some ⟨⟨2021, 9, 6⟩, ⟨9, 5⟩⟩)
        = Except.ok "absent_unknown" := by
  refine ⟨by decide, by decide, by decide⟩

/-- C2: two records exist for the same hour and date, at 08:35 (on time)
and 08:50 (late); at evaluation instant 09:00 both are at or before the
instant, so the claim (chronologically latest qualifying record wins)
demands the 08:50 record and status `late_known`.  The code's
`for rec in reversed(records)` loop overwrites `record` on every
qualifying element, so the *earliest* record wins and the status is
`present_known` — contradicting the code's own comment
("set record to most recent record"). -/
theorem C2_update_status_picks_earliest_record :
    stuTwoRec.update_status ⟨⟨2021, 9, 6⟩, ⟨9, 0⟩⟩ (some ⟨⟨2021, 9, 6⟩, ⟨9, 0⟩⟩)
        = Except.ok "present_known"
    ∧ (⟨⟨2021, 9, 6⟩, recLater.time⟩ : Datetime).toMin
        ≤ (⟨⟨2021, 9, 6⟩, ⟨9, 0⟩⟩ : Datetime).toMin
    ∧ recEarly.time.toMin < recLater.time.toMin
    ∧ recLater.late = true := by
  refine ⟨by decide, by decide, by decide, by decide⟩

end webapp

/-- C3: `set_dt` violates the clock invariant: on a freshly reset clock,
`set_dt('2021/09/06 08:33')` leaves `date`/`time` at the new value but
`datetime` (and the three string forms) still at the default
2022-01-20 15:30, because `set_dt` neither assigns `self.datetime` nor
calls `self.update()` — contradicting both the stated invariant and the
method's own docstring ("Set instance datetime and update date/time"). -/
theorem C3_set_dt_breaks_clock_invariant :
    (VDState.init.set_dt (some ⟨⟨2021, 9, 6⟩, ⟨8, 33⟩⟩)).date = ⟨2021, 9, 6⟩
    ∧ (VDState.init.set_dt (some ⟨⟨2021, 9, 6⟩, ⟨8, 33⟩⟩)).time = ⟨8, 33⟩
    ∧ (VDState.init.set_dt (some ⟨⟨2021, 9, 6⟩, ⟨8, 33⟩⟩)).datetime = VD.defaultDt
    ∧ (VDState.init.set_dt (some ⟨⟨2021, 9, 6⟩, ⟨8, 33⟩⟩)).consistent = false := by
  refine ⟨by decide, by decide, by decide, by decide⟩

/-- C4 counterexample: the raw date string `"21/02/31"` matches the
accepted date pattern (`dd` up to 31 for any month), so it is not
"malformed" in the claim's sense and is not empty, yet `process_form`
raises: `strptime` rejects February 31 with a `ValueError` that propagates
to the caller. -/
theorem C4_process_form_raises_on_invalid_calendar_date :
    VDState.init.process_form "21/02/31" "" = Except.error PyErr.valueError
    ∧ (VD.rx_date "21/02/31").isSome = true := by
  refine ⟨by decide, by decide⟩

namespace webapp

/-- C6 counterexample: a group with no timetables at all.  The claim says
such a group "is never reported off (the check returns false rather than
failing)", but `sorted(self.timetables, key=...)[-1]` indexes an empty
list and `is_off` fails with an `IndexError` instead of returning false. -/
theorem C6_is_off_raises_without_timetables :
    groupNoTT.is_off ⟨⟨2021, 9, 6⟩, ⟨9, 0⟩⟩ = Except.error PyErr.indexError := by decide

/-- C7: at Monday 2021-09-06 08:32 the current hour (08:30–09:15) exists
and the instant is only 2 minutes past its start — not late, since
2 ≤ `Cf.max_late` = 5, as `is_late` itself confirms — so the claim demands
`mins_late` = 0.  The code's guard is merely `start < datetime` (its
comment "if later than max allowed in config" notwithstanding), so it
returns the raw 2-minute difference instead of 0. -/
theorem C7_mins_late_ignores_threshold :
    groupDemo.mins_late ⟨⟨2021, 9, 6⟩, ⟨8, 32⟩⟩ = Except.ok (some 2)
    ∧ groupDemo.is_late ⟨⟨2021, 9, 6⟩, ⟨8, 32⟩⟩ = Except.ok false := by
  refine ⟨by decide, by decide⟩

/-- C8: at Monday 2021-09-06 09:30 the current hour is the day's second
slot (09:20–10:05), so the claim demands that `hour_prev` return the
immediately preceding 08:30–09:15 slot.  Instead `hour_prev` raises: its
eager `hours_prev_day` lookup evaluates
`VD.parse_dt(date) - VD.parse_dt(self.timetable(date).date_start)`, whose
`strptime` calls fail on every input (a `datetime` object: `TypeError`; the
stored date-only `date_start` string: `ValueError`) — and even without
that, `hours_today.index[hour_current]` subscripts a bound method
(`TypeError`).  The spec's §9 already flags this path as a defect. -/
theorem C8_hour_prev_raises :
    groupDemo.hour_now ⟨⟨2021, 9, 6⟩, ⟨9, 30⟩⟩ = Except.ok (some hourB)
    ∧ groupDemo.hour_prev ⟨⟨2021, 9, 6⟩, ⟨9, 30⟩⟩ (some ⟨⟨2021, 9, 6⟩, ⟨9, 30⟩⟩)
        = Except.error PyErr.typeError
    ∧ groupDemo.hour_prev ⟨⟨2021, 9, 6⟩, ⟨9, 30⟩⟩ none = Except.error PyErr.valueError := by
  refine ⟨by decide, by decide, by decide⟩

/-- C10: `update_status` is not a function of the explicit instant and the
records alone.  With the same student (no records), the same explicit
instant Monday 2021-09-06 08:40 and the same record set, changing only the
shared virtual clock — 08:40 (a current hour exists at the clock's time)
versus 20:00 (none does) — flips the result between `late_unknown` and
`not_expected`, because the initial guard `self.group.hour_now()` and the
record cutoff read the global clock. -/
theorem C10_update_status_reads_global_clock :
    stuNoRec.update_status ⟨⟨2021, 9, 6⟩, ⟨8, 40⟩⟩ (some ⟨⟨2021, 9, 6⟩, ⟨8, 40⟩⟩)
        = Except.ok "late_unknown"
    ∧ stuNoRec.update_status ⟨⟨2021, 9, 6⟩, ⟨20, 0⟩⟩ (some ⟨⟨2021, 9, 6⟩, ⟨8, 40⟩⟩)
        = Except.ok "not_expected" := by
  refine ⟨by decide, by decide⟩

end webapp

namespace webapp

/-- The adjacent-pair scan succeeds iff no adjacent pair of the (already
sorted) list overlaps. -/
theorem eckAdj_ok_iff (l : List Timetable) :
    eckAdj l = Except.ok () ↔
      ∀ p ∈ l.zip l.tail, ¬ (p.2.date_start.toOrdinal < p.1.date_end.toOrdinal) := by
  induction l with
  | nil => simp [eckAdj, pure, Except.pure, Bind.bind, Except.bind]
  | cons t1 rest ih =>
    cases rest with
    | nil => simp [eckAdj, pure, Except.pure, Bind.bind, Except.bind]
    | cons t2 rest2 =>
      by_cases h : t2.date_start.toOrdinal < t1.date_end.toOrdinal
      · simp [eckAdj, Date.ltb, h]
      · simp only [eckAdj, Date.ltb, decide_eq_true_eq, h, if_false, ih]
        constructor
        · intro hall
          intro p hp
          rcases List.mem_cons.mp hp with hp1 | hp2
          · subst hp1; exact h
          · exact hall p hp2
        · intro hall p hp
          exact hall p (List.mem_cons_of_mem _ hp)

/-- When the adjacent-pair scan fails, the reported ids are those of an
adjacent overlapping pair of the (already sorted) list. -/
theorem eckAdj_error (l : List Timetable) (i j : Nat)
    (h : eckAdj l = Except.error (PyErr.overlap i j)) :
    ∃ p ∈ l.zip l.tail,
      p.2.date_start.toOrdinal < p.1.date_end.toOrdinal ∧ p.1.id = i ∧ p.2.id = j := by
  induction l with
  | nil => simp [eckAdj, pure, Except.pure, Bind.bind, Except.bind] at h
  | cons t1 rest ih =>
    cases rest with
    | nil => simp [eckAdj, pure, Except.pure, Bind.bind, Except.bind] at h
    | cons t2 rest2 =>
      by_cases hc : t2.date_start.toOrdinal < t1.date_end.toOrdinal
      · simp only [eckAdj, Date.ltb, decide_eq_true_eq, hc, if_true] at h
        have hinj := Except.error.inj h
        have h1 : t1.id = i := (PyErr.overlap.injEq _ _ _ _).mp hinj |>.1
        have h2 : t2.id = j := (PyErr.overlap.injEq _ _ _ _).mp hinj |>.2
        exact ⟨(t1, t2), List.mem_cons_self _ _, hc, h1, h2⟩
      · simp only [eckAdj, Date.ltb, decide_eq_true_eq, hc, if_false] at h
        obtain ⟨p, hp, hviol⟩ := ih h
        exact ⟨p, List.mem_cons_of_mem _ hp, hviol⟩

end webapp

namespace webapp

/-- C5: `eck_overlap` raises iff, after sorting by `date_start`, some
adjacent pair has the earlier timetable's `date_end` strictly greater than
the later one's `date_start` (equality does not raise, since the scan
compares with strict `>`), and the raised `TimetableOverlapError` carries
the ids of such a conflicting adjacent pair. -/
theorem C5_eck_overlap_spec (tts : List Timetable) :
    (Timetable.eck_overlap tts = Except.ok () ↔
      ∀ p ∈ (pySorted (fun a b => a.date_start.leb b.date_start) tts).zip
          (pySorted (fun a b => a.date_start.leb b.date_start) tts).tail,
        ¬ (p.2.date_start.toOrdinal < p.1.date_end.toOrdinal))
    ∧ (∀ i j, Timetable.eck_overlap tts = Except.error (PyErr.overlap i j) →
      ∃ p ∈ (pySorted (fun a b => a.date_start.leb b.date_start) tts).zip
          (pySorted (fun a b => a.date_start.leb b.date_start) tts).tail,
        p.2.date_start.toOrdinal < p.1.date_end.toOrdinal ∧ p.1.id = i ∧ p.2.id = j) :=
  ⟨eckAdj_ok_iff _, fun i j h => eckAdj_error _ i j h⟩

/-- The spec §8's overlapping example pair: 2021-09-01..2021-12-01. -/
def ttOv1 : Timetable := ⟨3, "autumn", ⟨2021, 9, 1⟩, ⟨2021, 12, 1⟩, []⟩

/-- The spec §8's overlapping example pair: 2021-11-01..2022-02-01. -/
def ttOv2 : Timetable := ⟨4, "winter", ⟨2021, 11, 1⟩, ⟨2022, 2, 1⟩, []⟩

/-- C5 witness: on the spec's overlapping example the check raises naming
both ids, and the characterization theorem holds at that concrete input. -/
theorem C5_eck_overlap_spec_witness :
    Timetable.eck_overlap [ttOv1, ttOv2] = Except.error (PyErr.overlap 3 4)
    ∧ ((Timetable.eck_overlap [ttOv1, ttOv2] = Except.ok () ↔
      ∀ p ∈ (pySorted (fun a b => a.date_start.leb b.date_start) [ttOv1, ttOv2]).zip
          (pySorted (fun a b => a.date_start.leb b.date_start) [ttOv1, ttOv2]).tail,
        ¬ (p.2.date_start.toOrdinal < p.1.date_end.toOrdinal))
    ∧ (∀ i j, Timetable.eck_overlap [ttOv1, ttOv2] = Except.error (PyErr.overlap i j) →
      ∃ p ∈ (pySorted (fun a b => a.date_start.leb b.date_start) [ttOv1, ttOv2]).zip
          (pySorted (fun a b => a.date_start.leb b.date_start) [ttOv1, ttOv2]).tail,
        p.2.date_start.toOrdinal < p.1.date_end.toOrdinal ∧ p.1.id = i ∧ p.2.id = j)) :=
  ⟨by decide, C5_eck_overlap_spec [ttOv1, ttOv2]⟩

end webapp

theorem insertLe_length (le : α → α → Bool) (x : α) (l : List α) :
    (insertLe le x l).length = l.length + 1 := by
  induction l with
  | nil => rfl
  | cons y ys ih => by_cases h : le y x <;> simp [insertLe, h, ih]

theorem pySorted_length (le : α → α → Bool) (l : List α) :
    (pySorted le l).length = l.length := by
  suffices hgen : ∀ acc : List α,
      (l.foldl (fun acc x => insertLe le x acc) acc).length = acc.length + l.length by
    simpa [pySorted] using hgen []
  induction l with
  | nil => intro acc; simp
  | cons x xs ih =>
    intro acc
    simp only [List.foldl_cons, ih, insertLe_length, List.length_cons]
    omega

theorem pySorted_ne_nil {le : α → α → Bool} {l : List α} (h : l ≠ []) :
    pySorted le l ≠ [] := by
  intro hnil
  apply h
  have hlen := pySorted_length le l
  rw [hnil] at hlen
  exact List.length_eq_zero.mp hlen.symm

namespace webapp

/-- C6 (amended): for a group with at least one timetable, `is_off`
succeeds, and returns true iff the instant is strictly after the datetime
combining the last timetable's `date_end` (last after the stable sort by
`date_end`) with the end time of that timetable's last hour slot under the
`(day_of_week, end_time)` ordering; in particular a last timetable without
slots yields false.  (A group with no timetables raises `IndexError`
instead — see the counterexample.) -/
theorem C6_is_off_spec (g : Group) (x : Datetime) (hne : g.timetables ≠ []) :
    ∃ b, g.is_off x = Except.ok b ∧
      (b = true ↔ ∃ ltt lh,
        (pySorted (fun a b => a.date_end.leb b.date_end) g.timetables).getLast? = some ltt ∧
        (pySorted isOffHourLe ltt.hours).getLast? = some lh ∧
        (⟨ltt.date_end, lh.time_end⟩ : Datetime).toMin < x.toMin) := by
  cases hlast : (pySorted (fun a b => a.date_end.leb b.date_end) g.timetables).getLast? with
  | none =>
    exact absurd (List.getLast?_eq_none_iff.mp hlast) (pySorted_ne_nil hne)
  | some ltt =>
    cases hh : (pySorted isOffHourLe ltt.hours).getLast? with
    | none =>
      refine ⟨false, ?_, ?_⟩
      · simp [Group.is_off, hlast, hh, Bind.bind, Except.bind, pure, Except.pure, Bind.bind, Except.bind]
      · apply iff_of_false (by simp)
        rintro ⟨ltt2, lh2, h1, h2, _⟩
        injection h1 with h1
        rw [← h1, hh] at h2
        exact Option.noConfusion h2
    | some lh =>
      refine ⟨decide ((⟨ltt.date_end, lh.time_end⟩ : Datetime).toMin < x.toMin), ?_, ?_⟩
      · simp [Group.is_off, hlast, hh, Bind.bind, Except.bind, pure, Except.pure, Bind.bind, Except.bind]
      · rw [decide_eq_true_eq]
        constructor
        · intro hlt
          exact ⟨ltt, lh, rfl, hh, hlt⟩
        · rintro ⟨ltt2, lh2, h1, h2, h3⟩
          injection h1 with h1
          rw [← h1, hh] at h2
          injection h2 with h2
          rw [h1, h2]
          exact h3

/-- C6 witness: the characterization applied to the demonstration group at
2022-06-30 10:06, one minute past the end (10:05) of the last slot on the
last timetable day — the group is off. -/
theorem C6_is_off_spec_witness :
    groupDemo.timetables ≠ []
    ∧ ∃ b, groupDemo.is_off ⟨⟨2022, 6, 30⟩, ⟨10, 6⟩⟩ = Except.ok b ∧
      (b = true ↔ ∃ ltt lh,
        (pySorted (fun a b => a.date_end.leb b.date_end) groupDemo.timetables).getLast? = some ltt ∧
        (pySorted isOffHourLe ltt.hours).getLast? = some lh ∧
        (⟨ltt.date_end, lh.time_end⟩ : Datetime).toMin
          < (⟨⟨2022, 6, 30⟩, ⟨10, 6⟩⟩ : Datetime).toMin) :=
  ⟨by decide, C6_is_off_spec groupDemo ⟨⟨2022, 6, 30⟩, ⟨10, 6⟩⟩ (by decide)⟩

end webapp

namespace webapp

/-- C9: whenever `hours_on_date` resolves (to `hod`, possibly `None`) and
at most one of the day's slots contains the instant's time, `hour_now`
succeeds and returns exactly the slot whose inclusive
`[time_start, time_end]` range contains the instant's time — in particular
an instant equal to a slot's `time_end` still selects it — and `None` iff
no slot contains the time (which includes `hod = none`, the no-classes-today
case, where the slot list defaults to empty). -/
theorem C9_hour_now_spec (g : Group) (x : Datetime) (hod : Option (List Hour))
    (hres : g.hours_on_date x.date = Except.ok hod)
    (huniq : ∀ a ∈ hod.getD [], ∀ b ∈ hod.getD [],
      a.time_start.toMin ≤ x.time.toMin → x.time.toMin ≤ a.time_end.toMin →
      b.time_start.toMin ≤ x.time.toMin → x.time.toMin ≤ b.time_end.toMin → a = b) :
    ∃ r, g.hour_now x = Except.ok r ∧
      (∀ h, r = some h ↔ h ∈ hod.getD [] ∧
        h.time_start.toMin ≤ x.time.toMin ∧ x.time.toMin ≤ h.time_end.toMin) ∧
      (r = none ↔ ∀ h ∈ hod.getD [],
        ¬ (h.time_start.toMin ≤ x.time.toMin ∧ x.time.toMin ≤ h.time_end.toMin)) := by
  refine ⟨(hod.getD []).find? (fun h =>
      decide (h.time_start.toMin ≤ x.time.toMin) && decide (x.time.toMin ≤ h.time_end.toMin)),
    ?_, ?_, ?_⟩
  · cases hod with
    | none => simp [Group.hour_now, hres, Bind.bind, Except.bind, pure, Except.pure, Bind.bind, Except.bind]
    | some hours => simp [Group.hour_now, hres, Bind.bind, Except.bind, pure, Except.pure, Bind.bind, Except.bind]
  · intro h
    constructor
    · intro hf
      have hmem := List.mem_of_find?_eq_some hf
      have hp := List.find?_some hf
      simp only [Bool.and_eq_true, decide_eq_true_eq] at hp
      exact ⟨hmem, hp.1, hp.2⟩
    · rintro ⟨hmem, h1, h2⟩
      have hsome : ((hod.getD []).find? (fun h =>
          decide (h.time_start.toMin ≤ x.time.toMin)
          && decide (x.time.toMin ≤ h.time_end.toMin))).isSome :=
        List.find?_isSome.mpr ⟨h, hmem, by simp [h1, h2]⟩
      obtain ⟨h2', hf'⟩ := Option.isSome_iff_exists.mp hsome
      have hp' := List.find?_some hf'
      simp only [Bool.and_eq_true, decide_eq_true_eq] at hp'
      have heqq := huniq h2' (List.mem_of_find?_eq_some hf') h hmem hp'.1 hp'.2 h1 h2
      rw [hf', heqq]
  · rw [List.find?_eq_none]
    constructor
    · intro hall h hmem hcontra
      exact hall h hmem (by simp [hcontra.1, hcontra.2])
    · intro hall h hmem hp
      simp only [Bool.and_eq_true, decide_eq_true_eq] at hp
      exact hall h hmem hp

/-- C9 witness: the boundary instant Monday 2021-09-06 09:15, exactly the
`time_end` of the 08:30–09:15 slot, still selects that slot. -/
theorem C9_hour_now_spec_witness :
    groupDemo.hours_on_date (⟨⟨2021, 9, 6⟩, ⟨9, 15⟩⟩ : Datetime).date
        = Except.ok (some [hourA, hourB])
    ∧ ∃ r, groupDemo.hour_now ⟨⟨2021, 9, 6⟩, ⟨9, 15⟩⟩ = Except.ok r ∧
      (∀ h, r = some h ↔ h ∈ (some [hourA, hourB]).getD [] ∧
        h.time_start.toMin ≤ (⟨⟨2021, 9, 6⟩, ⟨9, 15⟩⟩ : Datetime).time.toMin ∧
        (⟨⟨2021, 9, 6⟩, ⟨9, 15⟩⟩ : Datetime).time.toMin ≤ h.time_end.toMin) ∧
      (r = none ↔ ∀ h ∈ (some [hourA, hourB]).getD [],
        ¬ (h.time_start.toMin ≤ (⟨⟨2021, 9, 6⟩, ⟨9, 15⟩⟩ : Datetime).time.toMin ∧
          (⟨⟨2021, 9, 6⟩, ⟨9, 15⟩⟩ : Datetime).time.toMin ≤ h.time_end.toMin)) :=
  ⟨by decide,
    C9_hour_now_spec groupDemo ⟨⟨2021, 9, 6⟩, ⟨9, 15⟩⟩ (some [hourA, hourB])
      (by decide) (by decide)⟩

end webapp

theorem vd_parse_date_none : VD.parse_date none = some VD.defaultDate := by decide

theorem vd_parse_time_none : VD.parse_time none = some VD.defaultTime := by decide

/-- `update` establishes the clock invariant. -/
theorem update_consistent (s : VDState) : s.update.consistent = true := by
  simp [VDState.update, VDState.consistent, VD.comp_dt]

theorem set_date_none_eq (s : VDState) :
    s.set_date none = s.set_date (some VD.defaultDate) := rfl

theorem set_time_none_eq (s : VDState) :
    s.set_time none = s.set_time (some VD.defaultTime) := rfl

theorem set_date_date (s : VDState) (d : Option Date) :
    (s.set_date d).date = d.getD VD.defaultDate := by cases d <;> rfl

theorem set_time_time (s : VDState) (t : Option Time) :
    (s.set_time t).time = t.getD VD.defaultTime := by cases t <;> rfl

theorem set_time_date (s : VDState) (t : Option Time) :
    (s.set_time t).date = s.date := rfl

theorem set_time_consistent (s : VDState) (t : Option Time) :
    (s.set_time t).consistent = true := update_consistent _

/-- When both raw fields resolve (empty or pattern-rejected input falls
back to the default string, which parses; pattern-accepted input parses by
assumption), `process_form` commits `set_date` then `set_time` with the
parsed values. -/
theorem process_form_eq (s : VDState) (d t : String) (dd : Date) (tv : Time)
    (hdd : VD.parse_date (if d = "" then none else VD.rx_date d) = some dd)
    (htt : VD.parse_time (if t = "" then none else VD.rx_time t) = some tv) :
    s.process_form d t = Except.ok ((s.set_date (some dd)).set_time (some tv)) := by
  by_cases hde : d = ""
  · rw [if_pos hde, vd_parse_date_none] at hdd
    injection hdd with hdd
    by_cases hte : t = ""
    · rw [if_pos hte, vd_parse_time_none] at htt
      injection htt with htt
      subst hde hte
      rw [← hdd, ← htt]
      simp [VDState.process_form, set_date_none_eq, set_time_none_eq, pure, Except.pure, Bind.bind, Except.bind]
    · rw [if_neg hte] at htt
      subst hde
      rw [← hdd]
      simp [VDState.process_form, hte, htt, set_date_none_eq, pure, Except.pure, Bind.bind, Except.bind]
  · rw [if_neg hde] at hdd
    by_cases hte : t = ""
    · rw [if_pos hte, vd_parse_time_none] at htt
      injection htt with htt
      subst hte
      rw [← htt]
      simp [VDState.process_form, hde, hdd, set_time_none_eq, pure, Except.pure, Bind.bind, Except.bind]
    · rw [if_neg hte] at htt
      simp [VDState.process_form, hde, hte, hdd, htt, pure, Except.pure, Bind.bind, Except.bind]

/-- C4 (amended): `process_form` never raises *provided* every
pattern-accepted raw string parses — time strings always do, but a
pattern-accepted date string denoting an invalid calendar date (e.g.
`"21/02/31"`, see the counterexample) makes `strptime`'s `ValueError`
propagate.  Under that proviso: an empty/missing or pattern-rejected raw
string sets the corresponding clock field to its configured default, a
pattern-accepted parseable one sets it to the parsed value, and the
resulting clock state satisfies the derived-field invariant. -/
theorem C4_process_form_fallback_spec (s : VDState) (d t : String)
    (hd : ((VD.rx_date d).all fun sd => (VD.parse_date (some sd)).isSome) = true)
    (ht : ((VD.rx_time t).all fun sv => (VD.parse_time (some sv)).isSome) = true) :
    ∃ s2, s.process_form d t = Except.ok s2 ∧
      s2.date = (VD.parse_date (if d = "" then none else VD.rx_date d)).getD VD.defaultDate ∧
      s2.time = (VD.parse_time (if t = "" then none else VD.rx_time t)).getD VD.defaultTime ∧
      s2.consistent = true := by
  have hdate : ∃ dd, VD.parse_date (if d = "" then none else VD.rx_date d) = some dd := by
    by_cases hde : d = ""
    · exact ⟨VD.defaultDate, by rw [if_pos hde, vd_parse_date_none]⟩
    · rw [if_neg hde]
      cases hrx : VD.rx_date d with
      | none => exact ⟨VD.defaultDate, vd_parse_date_none⟩
      | some sd =>
        rw [hrx] at hd
        simp only [Option.all] at hd
        obtain ⟨dd, hdd⟩ := Option.isSome_iff_exists.mp hd
        exact ⟨dd, hdd⟩
  have htime : ∃ tv, VD.parse_time (if t = "" then none else VD.rx_time t) = some tv := by
    by_cases hte : t = ""
    · exact ⟨VD.defaultTime, by rw [if_pos hte, vd_parse_time_none]⟩
    · rw [if_neg hte]
      cases hrx : VD.rx_time t with
      | none => exact ⟨VD.defaultTime, vd_parse_time_none⟩
      | some sv =>
        rw [hrx] at ht
        simp only [Option.all] at ht
        obtain ⟨tv, htv⟩ := Option.isSome_iff_exists.mp ht
        exact ⟨tv, htv⟩
  obtain ⟨dd, hdd⟩ := hdate
  obtain ⟨tv, htt⟩ := htime
  refine ⟨(s.set_date (some dd)).set_time (some tv),
    process_form_eq s d t dd tv hdd htt, ?_, ?_, set_time_consistent _ _⟩
  · rw [set_time_date, set_date_date, hdd]
  · rw [set_time_time, htt]

/-- C4 witness: a well-formed date (`"21/09/06"`) and a colon-free
well-formed time (`"0833"`) both commit their parsed values and leave the
clock consistent. -/
theorem C4_process_form_fallback_spec_witness :
    (((VD.rx_date "21/09/06").all fun sd => (VD.parse_date (some sd)).isSome) = true)
    ∧ (((VD.rx_time "0833").all fun sv => (VD.parse_time (some sv)).isSome) = true)
    ∧ ∃ s2, VDState.init.process_form "21/09/06" "0833" = Except.ok s2 ∧
      s2.date = (VD.parse_date
        (if "21/09/06" = "" then none else VD.rx_date "21/09/06")).getD VD.defaultDate ∧
      s2.time = (VD.parse_time
        (if "0833" = "" then none else VD.rx_time "0833")).getD VD.defaultTime ∧
      s2.consistent = true :=
  ⟨by decide, by decide,
    C4_process_form_fallback_spec VDState.init "21/09/06" "0833" (by decide) (by decide)⟩
